import Mathlib

/-!
Shallow embedding of the hybrid-queue job system
(packages/hybrid-queue: Queue and Worker classes over a SQLite `jobs`
table) together with the CleanupService built on top of it.

The `jobs` table is modelled as a `List Job` in rowid (insertion) order.
SQLite TEXT comparison (BINARY collation, which for UTF-8 agrees with
code-point order) is modelled by `strLt`.
-/

/-- Job status enum: `'waiting' | 'processing' | 'completed' | 'failed'`. -/
inductive JobStatus where
  | waiting
  | processing
  | completed
  | failed
deriving DecidableEq, Repr

/-- A row of the `jobs` table: `id, name, data, attempts, status,
created_at, queue_name`.  `created_at` is a TEXT column, kept as a
string exactly as the code stores it. -/
structure Job where
  id : Nat
  name : String
  data : String
  attempts : Nat
  status : JobStatus
  created_at : String
  queue_name : String
deriving DecidableEq, Repr

/-- Lexicographic order on lists of naturals: the order memcmp induces
on UTF-8 byte strings, expressed on code points. -/
def natListLt : List Nat → List Nat → Bool
  | [], [] => false
  | [], _ :: _ => true
  | _ :: _, [] => false
  | a :: as, b :: bs => if a < b then true else if b < a then false else natListLt as bs

/-- SQLite TEXT `<` on two strings (BINARY collation). -/
def strLt (a b : String) : Bool :=
  natListLt (a.data.map Char.toNat) (b.data.map Char.toNat)

/-- A calendar timestamp, second precision, as both SQLite's
`datetime('now')` and JavaScript's `Date` render it. -/
structure DateTime where
  year : Nat
  month : Nat
  day : Nat
  hour : Nat
  minute : Nat
  second : Nat
deriving DecidableEq, Repr

/-- Two-digit zero padding, as in both timestamp formats. -/
def pad2 (n : Nat) : String :=
  if n < 10 then "0" ++ toString n else toString n

/-- Four-digit zero padding for the year. -/
def pad4 (n : Nat) : String :=
  if n < 10 then "000" ++ toString n
  else if n < 100 then "00" ++ toString n
  else if n < 1000 then "0" ++ toString n
  else toString n

/-- The string SQLite's `datetime('now')` produces:
`YYYY-MM-DD HH:MM:SS`. -/
def sqliteFormat (t : DateTime) : String :=
  pad4 t.year ++ "-" ++ pad2 t.month ++ "-" ++ pad2 t.day ++ " " ++
    pad2 t.hour ++ ":" ++ pad2 t.minute ++ ":" ++ pad2 t.second

/-- The string JavaScript's `Date.prototype.toISOString` produces
(milliseconds shown as `.000` at second precision):
`YYYY-MM-DDTHH:MM:SS.000Z`. -/
def isoFormat (t : DateTime) : String :=
  pad4 t.year ++ "-" ++ pad2 t.month ++ "-" ++ pad2 t.day ++ "T" ++
    pad2 t.hour ++ ":" ++ pad2 t.minute ++ ":" ++ pad2 t.second ++ ".000Z"

/-- Chronological key of a timestamp (strictly monotone in the calendar
order for in-range field values). -/
def dtKey (t : DateTime) : Nat :=
  ((((t.year * 13 + t.month) * 32 + t.day) * 24 + t.hour) * 60 + t.minute) * 60 + t.second

/-- `a` is chronologically no later than `b`. -/
def dtLe (a b : DateTime) : Bool :=
  dtKey a ≤ dtKey b

/-- `Queue.add`: `INSERT INTO jobs (name, data, queue_name, status,
attempts, created_at) VALUES (?, ?, ?, 'waiting', 0, datetime('now'))`;
the fresh id is SQLite AUTOINCREMENT (greater than every id ever used;
over a store that has not seen deletions of the max, max + 1). Returns
the updated table and the inserted row. -/
def addJob (store : List Job) (q name data : String) (now : DateTime) : List Job × Job :=
  let newId := (store.map Job.id).foldr max 0 + 1
  let j : Job :=
    { id := newId, name := name, data := data, attempts := 0,
      status := JobStatus.waiting, created_at := sqliteFormat now, queue_name := q }
  (store ++ [j], j)

/-- `Queue.updateJobStatus`: `UPDATE jobs SET status = ?[, attempts = ?]
WHERE id = ?`.  Affects every row whose id matches (zero rows when the
id is absent); never raises. -/
def updateJobStatus (store : List Job) (jobId : Nat) (status : JobStatus)
    (attempts : Option Nat) : List Job :=
  store.map fun r =>
    if r.id = jobId then
      { r with status := status, attempts := attempts.getD r.attempts }
    else r

/-- `Queue.deleteJob`: `DELETE FROM jobs WHERE id = ?`. -/
def deleteJob (store : List Job) (jobId : Nat) : List Job :=
  store.filter fun r => r.id ≠ jobId

/-- `Queue.retryJob`: select the row by `id AND queue_name`; if absent
return `false`; else `UPDATE jobs SET status = "waiting", attempts = 0
WHERE id = ?` and return `true`. -/
def retryJob (store : List Job) (q : String) (jobId : Nat) : Bool × List Job :=
  match store.find? (fun r => r.id = jobId ∧ r.queue_name = q) with
  | none => (false, store)
  | some _ =>
      (true, store.map fun r =>
        if r.id = jobId then { r with status := JobStatus.waiting, attempts := 0 } else r)

/-- `Queue.recoverOrphanedJobs`: `UPDATE jobs SET status = 'waiting'
WHERE queue_name = ? AND status = 'processing'`; returns the number of
rows changed. -/
def recoverOrphanedJobs (store : List Job) (q : String) : Nat × List Job :=
  let affected := (store.filter fun r =>
    r.queue_name = q ∧ r.status = JobStatus.processing).length
  (affected, store.map fun r =>
    if r.queue_name = q ∧ r.status = JobStatus.processing then
      { r with status := JobStatus.waiting }
    else r)

/-- Stable insertion of a job into a list already sorted by
`created_at` ascending: the job goes before the first element not
strictly below it. -/
def insertJob (j : Job) : List Job → List Job
  | [] => [j]
  | k :: ks =>
      if strLt k.created_at j.created_at then k :: insertJob j ks
      else j :: k :: ks

/-- Stable sort by `created_at` ascending (`ORDER BY created_at ASC`;
ties keep table order). -/
def sortByCreatedAt : List Job → List Job
  | [] => []
  | j :: js => insertJob j (sortByCreatedAt js)

/-- `Queue.getWaitingJobs`: `SELECT * FROM jobs WHERE queue_name = ?
AND status = 'waiting' ORDER BY created_at ASC LIMIT ?`. -/
def getWaitingJobs (store : List Job) (q : String) (limit : Nat) : List Job :=
  (sortByCreatedAt (store.filter fun r =>
    r.queue_name = q ∧ r.status = JobStatus.waiting)).take limit

/-- `Worker.MAX_ATTEMPTS` (`private readonly MAX_ATTEMPTS = 3`). -/
def MAX_ATTEMPTS : Nat := 3

/-- Mutable state of a `Worker` instance: the `isRunning` flag (the
poll timer is scheduling, not job state). -/
structure WorkerState where
  isRunning : Bool
deriving DecidableEq, Repr

/-- `Worker.start` (invoked by the constructor): returns early when
already running, else sets `isRunning` and schedules the poll timer.
It performs no read or write of the jobs table. -/
def workerStart (w : WorkerState) (store : List Job) : WorkerState × List Job :=
  if w.isRunning then (w, store) else ({ isRunning := true }, store)

/-- `Worker.handleJobFailure`: `newAttempts = job.attempts + 1`; at or
above `MAX_ATTEMPTS` mark the row `failed` with the new count, else
mark it `waiting` with the new count.  The caught error value is only
logged, never stored (second parameter). -/
def handleJobFailure (store : List Job) (job : Job) (errMsg : String) : List Job :=
  let newAttempts := job.attempts + 1
  if MAX_ATTEMPTS ≤ newAttempts then
    updateJobStatus store job.id JobStatus.failed (some newAttempts)
  else
    updateJobStatus store job.id JobStatus.waiting (some newAttempts)

/-- `Worker.processJob`: mark the claimed row `processing`, run the
handler (its result is the `outcome` argument: `ok` for a fulfilled
promise, `error msg` for a throw/rejection), then delete the row on
success or run `handleJobFailure` on failure. -/
def processJob (store : List Job) (job : Job) (outcome : Except String Unit) : List Job :=
  let s1 := updateJobStatus store job.id JobStatus.processing none
  match outcome with
  | Except.ok _ => deleteJob s1 job.id
  | Except.error e => handleJobFailure s1 job e

/-- `Worker.processJobs` (one poll tick): claim up to one waiting job
with `getWaitingJobs(1)` and process it; do nothing when none wait. -/
def workerTick (store : List Job) (q : String) (outcome : Job → Except String Unit) : List Job :=
  match getWaitingJobs store q 1 with
  | [] => store
  | j :: _ => processJob store j (outcome j)

/-- A row `cleanupOldJobs` targets: `queue_name = ? AND status = ? AND
created_at < ?`, the cutoff bound as the ISO string of a JavaScript
`Date` while `created_at` holds SQLite `datetime('now')` text. -/
def cleanupMatches (q : String) (status : JobStatus) (cutoffStr : String) (j : Job) : Bool :=
  j.queue_name = q ∧ j.status = status ∧ strLt j.created_at cutoffStr

/-- One `SELECT id FROM jobs WHERE queue_name = ? AND status = ? AND
created_at < ? LIMIT ?` (no ORDER BY: table order). -/
def selectBatch (store : List Job) (q : String) (status : JobStatus)
    (cutoffStr : String) (batchSize : Nat) : List Job :=
  (store.filter (cleanupMatches q status cutoffStr)).take batchSize

/-- The `while (hasMore)` loop of `Queue.cleanupOldJobs`, fuel-indexed:
select a batch; stop when empty; unless `dryRun`, delete the batch by
id; add the batch length to the running total; stop when the batch was
short of `batchSize`, else loop.  `none` means the fuel ran out before
the loop exited. -/
def cleanupLoop (q : String) (status : JobStatus) (cutoffStr : String)
    (batchSize : Nat) (dryRun : Bool) :
    Nat → List Job → Nat → Option (Nat × List Job)
  | 0, _, _ => none
  | fuel + 1, store, total =>
      let batch := selectBatch store q status cutoffStr batchSize
      if batch.isEmpty then some (total, store)
      else
        let store' := if dryRun then store
          else store.filter fun r => ¬ (batch.map Job.id).contains r.id
        let total' := total + batch.length
        if batch.length < batchSize then some (total', store')
        else cleanupLoop q status cutoffStr batchSize dryRun fuel store' total'

/-- `Queue.cleanupOldJobs(status, olderThanHours, batchSize, dryRun)`:
the cutoff `Date` (now minus `olderThanHours` hours) is rendered with
`toISOString()` and the loop runs from total 0. -/
def cleanupOldJobs (fuel : Nat) (store : List Job) (q : String) (status : JobStatus)
    (cutoff : DateTime) (batchSize : Nat) (dryRun : Bool) : Option (Nat × List Job) :=
  cleanupLoop q status (isoFormat cutoff) batchSize dryRun fuel store 0

/-- `Queue.getAllQueueNames`: `SELECT DISTINCT queue_name FROM jobs`
(first occurrences, in table order). -/
def getAllQueueNames (store : List Job) : List String :=
  (store.map Job.queue_name).dedup

/-- Result shape of a `CleanupService` run (the fields the claims
touch). -/
structure CleanupResult where
  success : Bool
  totalJobsCleaned : Nat
  errors : List String
deriving DecidableEq, Repr

/-- Mutable state of `CleanupService`: the single-flight `isRunning`
guard. -/
structure CleanupState where
  isRunning : Bool
deriving DecidableEq, Repr

/-- The per-queue loop of `CleanupService.performCleanup`: for each
queue name run `cleanupOldJobs` for `completed` then for `failed`; a
queue raising a storage error (membership in `failing`) appends to the
error list and moves on (the per-queue `catch`). -/
def cleanupQueuesLoop (fuel : Nat) (retC retF : DateTime) (batchSize : Nat)
    (dryRun : Bool) (failing : List String) :
    List String → List Job → Nat → List String → Option (Nat × List String × List Job)
  | [], store, total, errs => some (total, errs, store)
  | qn :: rest, store, total, errs =>
      if failing.contains qn then
        cleanupQueuesLoop fuel retC retF batchSize dryRun failing rest store total
          (errs ++ ["Failed to cleanup queue " ++ qn])
      else
        match cleanupOldJobs fuel store qn JobStatus.completed retC batchSize dryRun with
        | none => none
        | some (c, s1) =>
            match cleanupOldJobs fuel s1 qn JobStatus.failed retF batchSize dryRun with
            | none => none
            | some (f, s2) =>
                cleanupQueuesLoop fuel retC retF batchSize dryRun failing rest s2
                  (total + c + f) errs

/-- `CleanupService.performCleanup`: throw `"Cleanup is already
running"` when `isRunning` (before touching any row); otherwise set the
guard, run the body (an `outerFail` models the outer `catch`, which
returns `success: false`), and clear the guard in `finally` on every
path that finishes.  `none` is a body that never finishes (fuel ran
out), during which the guard stays held. -/
def performCleanup (fuel : Nat) (st : CleanupState) (store : List Job)
    (retC retF : DateTime) (batchSize : Nat) (dryRun : Bool)
    (failing : List String) (outerFail : Bool) :
    Option (CleanupState × List Job × Except String CleanupResult) :=
  if st.isRunning then
    some (st, store, Except.error "Cleanup is already running")
  else if outerFail then
    some ({ isRunning := false }, store,
      Except.ok { success := false, totalJobsCleaned := 0, errors := ["Cleanup failed"] })
  else
    match cleanupQueuesLoop fuel retC retF batchSize dryRun failing
        (getAllQueueNames store) store 0 [] with
    | none => none
    | some (total, errs, store') =>
        some ({ isRunning := false }, store',
          Except.ok { success := true, totalJobsCleaned := total, errors := errs })

/-! ### Concrete fixtures used by the claim theorems -/

/-- A job sitting in `processing` (as after a crash mid-execution, or a
manual status update). -/
def orphanJob : Job :=
  { id := 1, name := "n", data := "{}", attempts := 0,
    status := JobStatus.processing, created_at := "2024-06-01 23:00:00",
    queue_name := "q" }

/-- The same row in `completed` state. -/
def completedJob : Job :=
  { orphanJob with status := JobStatus.completed }

/-- The same row in `waiting` state. -/
def waitingJob : Job :=
  { orphanJob with status := JobStatus.waiting }

/-- The instant the fixture row was created. -/
def fixtureNow : DateTime := ⟨2024, 6, 1, 23, 0, 0⟩

/-- A purge cutoff 13 hours BEFORE `fixtureNow`, on the same calendar
day (now = 2024-06-02T10:00 with 24h retention). -/
def fixtureCutoff : DateTime := ⟨2024, 6, 1, 10, 0, 0⟩

/-- A purge cutoff one day after `fixtureNow` (every fixture row is
genuinely older than it). -/
def lateCutoff : DateTime := ⟨2024, 6, 2, 23, 0, 0⟩

/-! ### Order lemmas for `strLt` (SQLite TEXT comparison) -/

/-- `natListLt` is asymmetric. -/
theorem natListLt_asymm : ∀ {a b : List Nat}, natListLt a b = true → natListLt b a = false := by
  intro a
  induction a with
  | nil =>
      intro b h
      cases b with
      | nil => simp [natListLt] at h
      | cons y ys => simp [natListLt]
  | cons x xs ih =>
      intro b h
      cases b with
      | nil => simp [natListLt] at h
      | cons y ys =>
          simp only [natListLt] at h ⊢
          by_cases hxy : x < y
          · have hyx : ¬ y < x := by omega
            simp [hxy, hyx]
          · by_cases hyx : y < x
            · simp [hxy, hyx] at h
            · simp only [hxy, hyx, if_false] at h ⊢
              exact ih h

/-- `natListLt` is transitive. -/
theorem natListLt_trans : ∀ {a b c : List Nat},
    natListLt a b = true → natListLt b c = true → natListLt a c = true := by
  intro a
  induction a with
  | nil =>
      intro b c h1 h2
      cases b with
      | nil => simp [natListLt] at h1
      | cons y ys =>
          cases c with
          | nil => simp [natListLt] at h2
          | cons z zs => simp [natListLt]
  | cons x xs ih =>
      intro b c h1 h2
      cases b with
      | nil => simp [natListLt] at h1
      | cons y ys =>
          cases c with
          | nil => simp [natListLt] at h2
          | cons z zs =>
              simp only [natListLt] at h1 h2 ⊢
              by_cases hxy : x < y <;> by_cases hyz : y < z
              · have hxz : x < z := by omega
                simp [hxz]
              · by_cases hzy : z < y
                · simp [hyz, hzy] at h2
                · have hxz : x < z := by omega
                  simp [hxz]
              · by_cases hyx : y < x
                · simp [hxy, hyx] at h1
                · have hxz : x < z := by omega
                  simp [hxz]
              · by_cases hyx : y < x
                · simp [hxy, hyx] at h1
                · by_cases hzy : z < y
                  · simp [hyz, hzy] at h2
                  · have hxz : ¬ x < z := by omega
                    have hzx : ¬ z < x := by omega
                    simp only [hxy, hyx, if_false] at h1
                    simp only [hyz, hzy, if_false] at h2
                    simp only [hxz, hzx, if_false]
                    exact ih h1 h2

/-- Two lists neither of which is below the other are equal. -/
theorem natListLt_conn : ∀ {a b : List Nat},
    natListLt a b = false → natListLt b a = false → a = b := by
  intro a
  induction a with
  | nil =>
      intro b h1 _
      cases b with
      | nil => rfl
      | cons y ys => simp [natListLt] at h1
  | cons x xs ih =>
      intro b h1 h2
      cases b with
      | nil => simp [natListLt] at h2
      | cons y ys =>
          simp only [natListLt] at h1 h2
          by_cases hxy : x < y
          · simp [hxy] at h1
          · by_cases hyx : y < x
            · simp [hyx, hxy] at h2
            · have hx : x = y := by omega
              subst hx
              simp only [hxy, hyx, if_false] at h1 h2
              rw [ih h1 h2]

/-- `strLt` is asymmetric. -/
theorem strLt_asymm {a b : String} (h : strLt a b = true) : strLt b a = false :=
  natListLt_asymm h

/-- Negated `strLt` is transitive (the ≤ direction of the TEXT order). -/
theorem strLt_notLt_trans {a b c : String} (h1 : strLt b a = false) (h2 : strLt c b = false) :
    strLt c a = false := by
  by_contra hca
  have hca' : natListLt (c.data.map Char.toNat) (a.data.map Char.toNat) = true := by
    cases h : strLt c a with
    | false => exact absurd h hca
    | true => exact h
  have h1' : natListLt (b.data.map Char.toNat) (a.data.map Char.toNat) = false := h1
  have h2' : natListLt (c.data.map Char.toNat) (b.data.map Char.toNat) = false := h2
  cases h3 : natListLt (b.data.map Char.toNat) (c.data.map Char.toNat) with
  | true => exact absurd (natListLt_trans h3 hca') (by simp [h1'])
  | false =>
      have heq := natListLt_conn h2' h3
      rw [heq] at hca'
      exact absurd hca' (by simp [h1'])

/-! ### Lemmas about the sort used by `getWaitingJobs` -/

/-- Inserting permutes to consing. -/
theorem insertJob_perm (j : Job) : ∀ l : List Job, List.Perm (insertJob j l) (j :: l) := by
  intro l
  induction l with
  | nil => rfl
  | cons k ks ih =>
      simp only [insertJob]
      split_ifs with h
      · exact (List.Perm.cons k ih).trans (List.Perm.swap j k ks)
      · exact List.Perm.refl _

/-- The sort is a permutation of its input. -/
theorem sortByCreatedAt_perm : ∀ l : List Job, List.Perm (sortByCreatedAt l) l := by
  intro l
  induction l with
  | nil => rfl
  | cons j js ih =>
      exact List.Perm.trans (insertJob_perm j (sortByCreatedAt js)) (List.Perm.cons j ih)

/-- Insertion preserves sortedness by `created_at` ascending. -/
theorem pairwise_insertJob (j : Job) :
    ∀ l : List Job,
      List.Pairwise (fun a b => strLt b.created_at a.created_at = false) l →
      List.Pairwise (fun a b => strLt b.created_at a.created_at = false) (insertJob j l) := by
  intro l
  induction l with
  | nil => intro _; simp [insertJob]
  | cons k ks ih =>
      intro h
      rw [List.pairwise_cons] at h
      obtain ⟨hk, hks⟩ := h
      simp only [insertJob]
      split_ifs with hlt
      · rw [List.pairwise_cons]
        refine ⟨?_, ih hks⟩
        intro x hx
        have hx' : x = j ∨ x ∈ ks := by
          have := (insertJob_perm j ks).mem_iff.mp hx
          simpa using this
        cases hx' with
        | inl he => rw [he]; exact strLt_asymm hlt
        | inr hm => exact hk x hm
      · have hlt' : strLt k.created_at j.created_at = false := by
          cases hv : strLt k.created_at j.created_at with
          | false => rfl
          | true => exact absurd hv hlt
        rw [List.pairwise_cons]
        refine ⟨?_, ?_⟩
        · intro x hx
          rcases List.mem_cons.mp hx with he | hm
          · rw [he]; exact hlt'
          · exact strLt_notLt_trans hlt' (hk x hm)
        · rw [List.pairwise_cons]
          exact ⟨hk, hks⟩

/-- The sorted list is pairwise ordered by `created_at` ascending. -/
theorem pairwise_sortByCreatedAt :
    ∀ l : List Job,
      List.Pairwise (fun a b => strLt b.created_at a.created_at = false) (sortByCreatedAt l) := by
  intro l
  induction l with
  | nil => simp [sortByCreatedAt]
  | cons j js ih => exact pairwise_insertJob j (sortByCreatedAt js) ih

theorem cleanupLoop_dryrun_preserves (q : String) (status : JobStatus) (cut : String) (bs : Nat) :
    ∀ fuel store total c s',
      cleanupLoop q status cut bs true fuel store total = some (c, s') → s' = store := by
  intro fuel
  induction fuel with
  | zero => intro store total c s' h; simp [cleanupLoop] at h
  | succ n ih =>
      intro store total c s' h
      simp only [cleanupLoop] at h
      split at h
      · cases h; rfl
      · simp only [if_pos] at h
        split at h
        · cases h; rfl
        · exact ih store _ c s' h

theorem cleanupLoop_false_clears (q : String) (status : JobStatus) (cut : String) (bs : Nat) :
    ∀ fuel store total c s',
      cleanupLoop q status cut bs false fuel store total = some (c, s') →
      selectBatch s' q status cut bs = [] := by
  intro fuel
  induction fuel with
  | zero => intro store total c s' h; simp [cleanupLoop] at h
  | succ n ih =>
      intro store total c s' h
      simp only [cleanupLoop] at h
      split at h
      · rename_i hb
        cases h
        exact List.isEmpty_iff.mp hb
      · rename_i hb
        split at h
        · rename_i hlen
          cases h
          simp only [Bool.false_eq_true, if_false]
          have hall : (selectBatch store q status cut bs)
              = store.filter (cleanupMatches q status cut) := by
            unfold selectBatch at hlen ⊢
            apply List.take_of_length_le
            have := List.length_take bs (store.filter (cleanupMatches q status cut))
            omega
          unfold selectBatch
          rw [List.take_eq_nil_iff]
          right
          rw [List.filter_eq_nil_iff]
          intro r hr hm
          rw [List.mem_filter] at hr
          obtain ⟨hrs, hnc⟩ := hr
          have hrb : r ∈ selectBatch store q status cut bs := by
            rw [hall, List.mem_filter]
            exact ⟨hrs, hm⟩
          have hid : r.id ∈ (selectBatch store q status cut bs).map Job.id :=
            List.mem_map_of_mem Job.id hrb
          have hcont : ((selectBatch store q status cut bs).map Job.id).contains r.id = true := by
            simpa using hid
          simp only [decide_eq_true_eq] at hnc
          exact hnc hcont
        · exact ih _ _ c s' h

/-! ### find?/update lemmas -/

/-- `find?` commutes with a map that preserves the predicate. -/
theorem find_map_pred (f : Job → Job) (p : Job → Bool) (hp : ∀ r, p (f r) = p r) :
    ∀ l : List Job, (l.map f).find? p = (l.find? p).map f := by
  intro l
  induction l with
  | nil => rfl
  | cons a l ih =>
      simp only [List.map_cons, List.find?, hp a]
      cases h : p a with
      | true => simp
      | false => simpa using ih

/-- Looking a row up by id after `updateJobStatus` sees the update
applied to the row found before. -/
theorem find_updateJobStatus (store : List Job) (i : Nat) (st : JobStatus) (att : Option Nat)
    (tid : Nat) :
    (updateJobStatus store i st att).find? (fun r => r.id = tid)
      = (store.find? (fun r => r.id = tid)).map
          (fun r => if r.id = i then { r with status := st, attempts := att.getD r.attempts } else r) := by
  apply find_map_pred
  intro r
  by_cases h : r.id = i <;> simp [h]

/-- `updateJobStatus` with an id no row carries is the identity. -/
theorem updateJobStatus_absent (store : List Job) (jobId : Nat) (st : JobStatus)
    (att : Option Nat) (h : ∀ r ∈ store, r.id ≠ jobId) :
    updateJobStatus store jobId st att = store := by
  unfold updateJobStatus
  induction store with
  | nil => rfl
  | cons a l ih =>
      simp only [List.map_cons]
      rw [if_neg (h a (by simp))]
      rw [ih (fun r hr => h r (by simp [hr]))]

/-- C1: the claim fails on the code.  `Worker`'s constructor runs
`start()`, which only sets `isRunning` and schedules the poll timer; it
never calls `recoverOrphanedJobs` (no caller of that method exists), so
a job manually set to `processing` is still `processing` once the
Worker is running — and stays so across poll ticks, since
`getWaitingJobs` only claims `waiting` rows.  The last conjunct shows
the reset the claim expected is exactly what the uncalled
`recoverOrphanedJobs` would have performed. -/
theorem worker_start_leaves_processing :
    orphanJob.status = JobStatus.processing ∧
    workerStart ⟨false⟩ [orphanJob] = (⟨true⟩, [orphanJob]) ∧
    workerTick [orphanJob] "q" (fun _ => Except.ok ()) = [orphanJob] ∧
    recoverOrphanedJobs [orphanJob] "q" = (1, [waitingJob]) := by
  refine ⟨rfl, rfl, ?_, ?_⟩ <;> decide

/-- C3: the claim fails on the code.  With `dryRun = true` and at least
`batchSize` matching rows, `cleanupOldJobs` never terminates: the batch
is selected but not deleted, its length equals `batchSize`, so
`hasMore` stays true and the very same batch is selected again forever.
Here: one completed row older than the cutoff, `batchSize = 1`,
`dryRun = true` — the loop yields no result for any amount of fuel. -/
theorem cleanup_dryrun_diverges :
    ∀ fuel, cleanupOldJobs fuel [completedJob] "q" JobStatus.completed lateCutoff 1 true = none := by
  have key : ∀ fuel total,
      cleanupLoop "q" JobStatus.completed (isoFormat lateCutoff) 1 true fuel [completedJob] total
        = none := by
    intro fuel
    induction fuel with
    | zero => intro t; rfl
    | succ n ih =>
        intro t
        have hb : selectBatch [completedJob] "q" JobStatus.completed (isoFormat lateCutoff) 1
            = [completedJob] := by decide
        simp only [cleanupLoop, hb]
        simp only [List.isEmpty, List.length]
        norm_num
        exact ih (t + 1)
  intro fuel
  exact key fuel 0

/-- C4: the claim fails on the code.  A job enqueued at 23:00 on
2024-06-01 and then completed is deleted by a purge whose cutoff is
10:00 the same day — 13 hours BEFORE the row was created — because the
SQL comparison `created_at < ?` compares the SQLite text
`"2024-06-01 23:00:00"` against the ISO text
`"2024-06-01T10:00:00.000Z"`, and the space (0x20) at offset 10 sorts
below the `T` (0x54).  `dtLe fixtureCutoff fixtureNow` certifies the
row's creation instant is at/after the cutoff, yet the purge returns
count 1 and an empty table. -/
theorem cleanup_deletes_row_after_cutoff :
    (updateJobStatus (addJob [] "q" "n" "{}" fixtureNow).1 1 JobStatus.completed none
      = [completedJob]) ∧
    dtLe fixtureCutoff fixtureNow = true ∧
    strLt completedJob.created_at (isoFormat fixtureCutoff) = true ∧
    cleanupOldJobs 2 [completedJob] "q" JobStatus.completed fixtureCutoff 10 false
      = some (1, []) := by
  refine ⟨by decide, by decide, by decide, by decide⟩

/-- C6 counterexample: the claim fails on the code.  `updateJobStatus`
runs a single UPDATE whose WHERE clause matches no row when the id is
absent; `stmt.run` reports zero changes and no exception is raised, so
the operation completes normally and the table is unchanged — there is
no `StorageError` (nor any failure path in the method). -/
theorem updateJobStatus_missing_id_no_error :
    [waitingJob].find? (fun r => r.id = 2) = none ∧
    updateJobStatus [waitingJob] 2 JobStatus.failed none = [waitingJob] := by
  refine ⟨by decide, by decide⟩

/-- C6 amended: when no row carries the id, `updateJobStatus` is a
silent no-op (no error is raised); when a row does, its status and —
when supplied — attempts are updated in place. -/
theorem updateJobStatus_spec (store : List Job) (jobId : Nat) (st : JobStatus)
    (att : Option Nat) :
    ((∀ r ∈ store, r.id ≠ jobId) → updateJobStatus store jobId st att = store) ∧
    (∀ r ∈ store, r.id = jobId →
      { r with status := st, attempts := att.getD r.attempts }
        ∈ updateJobStatus store jobId st att) := by
  constructor
  · exact updateJobStatus_absent store jobId st att
  · intro r hr hid
    have hmem := List.mem_map_of_mem
      (fun r : Job => if r.id = jobId then
        { r with status := st, attempts := att.getD r.attempts } else r) hr
    simpa [updateJobStatus, hid] using hmem

/-- C6 amended, witness: a store with the single row id 1; updating a
missing id 5 leaves it unchanged, and updating id 1 to `completed` with
2 attempts puts the updated row in the result. -/
theorem updateJobStatus_spec_witness :
    updateJobStatus [waitingJob] 5 JobStatus.failed none = [waitingJob] ∧
    { waitingJob with status := JobStatus.completed, attempts := (some 2).getD waitingJob.attempts }
      ∈ updateJobStatus [waitingJob] 1 JobStatus.completed (some 2) :=
  ⟨(updateJobStatus_spec [waitingJob] 5 JobStatus.failed none).1 (by decide),
   (updateJobStatus_spec [waitingJob] 1 JobStatus.completed (some 2)).2 waitingJob (by decide)
     (by decide)⟩

/-- C7 counterexample: the claim fails on the code.  A third failure of
a job with 2 recorded attempts marks it `failed` with `attempts = 3`,
but the resulting table is byte-for-byte identical whichever error
message the handler threw — the jobs schema has no error column and
`handleJobFailure` only logs the error — so no failure message is
recorded or queryable. -/
theorem failed_job_records_no_error_message :
    handleJobFailure [{ orphanJob with attempts := 2 }] { orphanJob with attempts := 2 } "boom"
      = handleJobFailure [{ orphanJob with attempts := 2 }] { orphanJob with attempts := 2 }
          "a wholly different failure" ∧
    handleJobFailure [{ orphanJob with attempts := 2 }] { orphanJob with attempts := 2 } "boom"
      = [{ orphanJob with status := JobStatus.failed, attempts := 3 }] := by
  refine ⟨rfl, by decide⟩

/-- C7 amended: when a failing execution reaches `MAX_ATTEMPTS`, the
Worker marks the job `failed` with the incremented attempts count and
the row stays queryable — but the error message itself is not recorded
anywhere: the resulting table does not depend on it (the schema has no
error column). -/
theorem handleJobFailure_terminal_spec (store : List Job) (job : Job) (e1 e2 : String)
    (hfind : store.find? (fun r => r.id = job.id) = some job)
    (hmax : MAX_ATTEMPTS ≤ job.attempts + 1) :
    (handleJobFailure store job e1).find? (fun r => r.id = job.id)
      = some { job with status := JobStatus.failed, attempts := job.attempts + 1 } ∧
    handleJobFailure store job e1 = handleJobFailure store job e2 := by
  constructor
  · unfold handleJobFailure
    rw [if_pos hmax, find_updateJobStatus, hfind]
    simp
  · rfl

/-- C7 amended, witness: a job with 2 attempts fails a third time; it
is found `failed` with 3 attempts. -/
theorem handleJobFailure_terminal_spec_witness :
    (handleJobFailure [{ orphanJob with attempts := 2 }] { orphanJob with attempts := 2 }
        "boom").find? (fun r => r.id = ({ orphanJob with attempts := 2 } : Job).id)
      = some { ({ orphanJob with attempts := 2 } : Job) with
          status := JobStatus.failed,
          attempts := ({ orphanJob with attempts := 2 } : Job).attempts + 1 } :=
  (handleJobFailure_terminal_spec [{ orphanJob with attempts := 2 }]
    { orphanJob with attempts := 2 } "boom" "quite another message" (by decide) (by decide)).1

/-- C2: a handler throw/rejection increments the stored attempts by
exactly 1, and the row ends `failed` precisely when the incremented
count reaches `MAX_ATTEMPTS` (3); below that it is set back to
`waiting` for retry. -/
theorem processJob_failure_spec (store : List Job) (job : Job) (e : String)
    (hfind : store.find? (fun r => r.id = job.id) = some job) :
    (processJob store job (Except.error e)).find? (fun r => r.id = job.id)
      = some { job with
          status := if MAX_ATTEMPTS ≤ job.attempts + 1 then JobStatus.failed
            else JobStatus.waiting,
          attempts := job.attempts + 1 } ∧
    ((if MAX_ATTEMPTS ≤ job.attempts + 1 then JobStatus.failed else JobStatus.waiting)
        = JobStatus.failed ↔ MAX_ATTEMPTS ≤ job.attempts + 1) ∧
    (job.attempts + 1 < MAX_ATTEMPTS →
      (if MAX_ATTEMPTS ≤ job.attempts + 1 then JobStatus.failed else JobStatus.waiting)
        = JobStatus.waiting) := by
  refine ⟨?_, ?_, ?_⟩
  · by_cases hmax : MAX_ATTEMPTS ≤ job.attempts + 1
    · simp only [processJob, handleJobFailure, if_pos hmax]
      rw [find_updateJobStatus, find_updateJobStatus, hfind]
      simp [hmax]
    · simp only [processJob, handleJobFailure, if_neg hmax]
      rw [find_updateJobStatus, find_updateJobStatus, hfind]
      simp [hmax]
  · by_cases hmax : MAX_ATTEMPTS ≤ job.attempts + 1
    · simp [hmax]
    · simp only [if_neg hmax]
      constructor
      · intro h; exact absurd h (by decide)
      · intro h; exact absurd h hmax
  · intro h
    rw [if_neg (by omega)]

/-- C2 witness: a fresh job (0 attempts) fails once; it is found back
in `waiting` with 1 attempt. -/
theorem processJob_failure_spec_witness :
    (processJob [waitingJob] waitingJob (Except.error "boom")).find?
        (fun r => r.id = waitingJob.id)
      = some { waitingJob with
          status := if MAX_ATTEMPTS ≤ waitingJob.attempts + 1 then JobStatus.failed
            else JobStatus.waiting,
          attempts := waitingJob.attempts + 1 } :=
  (processJob_failure_spec [waitingJob] waitingJob "boom" (by decide)).1

/-- C5: a dry-run purge never changes the stored job set, and after a
real (`dryRun = false`) purge finishes, a rerun with the same status
and cutoff finds nothing left: it returns count 0 and the same set. -/
theorem cleanup_dryrun_and_rerun_spec (fuel fuel2 : Nat) (store : List Job) (q : String)
    (status : JobStatus) (cutoff : DateTime) (bs : Nat) :
    (∀ c s', cleanupOldJobs fuel store q status cutoff bs true = some (c, s') → s' = store) ∧
    (∀ c1 s1, cleanupOldJobs fuel store q status cutoff bs false = some (c1, s1) →
      cleanupOldJobs (fuel2 + 1) s1 q status cutoff bs false = some (0, s1)) := by
  constructor
  · intro c s' h
    exact cleanupLoop_dryrun_preserves q status (isoFormat cutoff) bs fuel store 0 c s' h
  · intro c1 s1 h
    have hclear := cleanupLoop_false_clears q status (isoFormat cutoff) bs fuel store 0 c1 s1 h
    unfold cleanupOldJobs cleanupLoop
    rw [hclear]
    rfl

/-- C5 witness: one completed row older than the cutoff, batch size 2.
The dry run returns the unchanged table; the real run empties it and a
rerun on the emptied table returns 0. -/
theorem cleanup_dryrun_and_rerun_spec_witness :
    [completedJob] = ([completedJob] : List Job) ∧
    cleanupOldJobs 1 [] "q" JobStatus.completed lateCutoff 2 false = some (0, []) :=
  ⟨(cleanup_dryrun_and_rerun_spec 1 0 [completedJob] "q" JobStatus.completed lateCutoff 2).1
      1 [completedJob] (by decide),
   (cleanup_dryrun_and_rerun_spec 1 0 [completedJob] "q" JobStatus.completed lateCutoff 2).2
      1 [] (by decide)⟩

/-- C8: `getWaitingJobs` returns at most `limit` rows, each belonging
to the queue with status `waiting`, ordered by `created_at` ascending,
and returns the empty list (not an error) when the queue has no waiting
job. -/
theorem getWaitingJobs_spec (store : List Job) (q : String) (limit : Nat) :
    (getWaitingJobs store q limit).length ≤ limit ∧
    (∀ j ∈ getWaitingJobs store q limit, j.queue_name = q ∧ j.status = JobStatus.waiting) ∧
    List.Pairwise (fun a b => strLt b.created_at a.created_at = false)
      (getWaitingJobs store q limit) ∧
    ((∀ j ∈ store, j.queue_name = q → j.status ≠ JobStatus.waiting) →
      getWaitingJobs store q limit = []) := by
  refine ⟨?_, ?_, ?_, ?_⟩
  · unfold getWaitingJobs
    simp [List.length_take]
  · intro j hj
    unfold getWaitingJobs at hj
    have hj1 := List.mem_of_mem_take hj
    have hj2 := (sortByCreatedAt_perm _).mem_iff.mp hj1
    rw [List.mem_filter] at hj2
    have := hj2.2
    simpa using this
  · exact List.Pairwise.sublist (List.take_sublist _ _) (pairwise_sortByCreatedAt _)
  · intro h
    unfold getWaitingJobs
    have hfil : store.filter
        (fun r => decide (r.queue_name = q ∧ r.status = JobStatus.waiting)) = [] := by
      rw [List.filter_eq_nil_iff]
      intro r hr
      simp only [decide_eq_true_eq, not_and]
      intro hq
      exact h r hr hq
    rw [hfil]
    simp [sortByCreatedAt]

/-- C8 witness: a queue holding only a `processing` row yields the
empty list. -/
theorem getWaitingJobs_spec_witness :
    getWaitingJobs [orphanJob] "q" 5 = [] :=
  (getWaitingJobs_spec [orphanJob] "q" 5).2.2.2 (by decide)

/-- C9: while a run is in progress (`isRunning`), any further trigger —
scheduled or manual — is rejected by throwing `"Cleanup is already
running"` before touching any row; and every run that finishes,
successfully or through the failure paths, leaves the guard cleared
(`finally { this.isRunning = false }`). -/
theorem performCleanup_guard_spec (fuel : Nat) (st : CleanupState) (store : List Job)
    (retC retF : DateTime) (bs : Nat) (dr : Bool) (failing : List String) (outerFail : Bool) :
    (st.isRunning = true →
      performCleanup fuel st store retC retF bs dr failing outerFail
        = some (st, store, Except.error "Cleanup is already running")) ∧
    (∀ st' store' r, st.isRunning = false →
      performCleanup fuel st store retC retF bs dr failing outerFail = some (st', store', r) →
      st'.isRunning = false) := by
  constructor
  · intro h
    simp [performCleanup, h]
  · intro st' store' r h heq
    cases outerFail with
    | true =>
        have hpc : performCleanup fuel st store retC retF bs dr failing true
            = some ({ isRunning := false }, store,
                Except.ok
                  { success := false, totalJobsCleaned := 0, errors := ["Cleanup failed"] }) := by
          simp [performCleanup, h]
        rw [hpc] at heq
        cases heq
        rfl
    | false =>
        cases hloop : cleanupQueuesLoop fuel retC retF bs dr failing (getAllQueueNames store)
            store 0 [] with
        | none =>
            have hpc : performCleanup fuel st store retC retF bs dr failing false = none := by
              simp [performCleanup, h, hloop]
            rw [hpc] at heq
            cases heq
        | some v =>
            obtain ⟨total, errs, sfin⟩ := v
            have hpc : performCleanup fuel st store retC retF bs dr failing false
                = some ({ isRunning := false }, sfin,
                    Except.ok { success := true, totalJobsCleaned := total, errors := errs }) := by
              simp [performCleanup, h, hloop]
            rw [hpc] at heq
            cases heq
            rfl

/-- C9 witness: a trigger against a running service is rejected with
the error and the untouched state; a completed run has the guard
cleared. -/
theorem performCleanup_guard_spec_witness :
    performCleanup 1 ⟨true⟩ [orphanJob] fixtureCutoff fixtureCutoff 1 false [] false
      = some (⟨true⟩, [orphanJob], Except.error "Cleanup is already running") ∧
    ({ isRunning := false } : CleanupState).isRunning = false :=
  ⟨(performCleanup_guard_spec 1 ⟨true⟩ [orphanJob] fixtureCutoff fixtureCutoff 1
      false [] false).1 rfl,
   (performCleanup_guard_spec 1 ⟨false⟩ [] fixtureCutoff fixtureCutoff 1 false [] false).2
     ⟨false⟩ [] (Except.ok { success := true, totalJobsCleaned := 0, errors := [] })
     rfl rfl⟩

/-- C10: `retryJob` answers `true` exactly when a row with the id
exists in the queue; on `true` that row — whatever its current status —
is reset to `waiting` with 0 attempts while every other row is kept;
on `false` the table is unchanged. -/
theorem retryJob_spec (store : List Job) (q : String) (jobId : Nat) :
    ((retryJob store q jobId).1 = true ↔ ∃ j ∈ store, j.id = jobId ∧ j.queue_name = q) ∧
    ((retryJob store q jobId).1 = true →
      (∀ j ∈ store, j.id = jobId →
        { j with status := JobStatus.waiting, attempts := 0 } ∈ (retryJob store q jobId).2) ∧
      (∀ j ∈ store, j.id ≠ jobId → j ∈ (retryJob store q jobId).2)) ∧
    ((retryJob store q jobId).1 = false → (retryJob store q jobId).2 = store) := by
  cases hfind : store.find? (fun r => decide (r.id = jobId ∧ r.queue_name = q)) with
  | none =>
      have hnone : ∀ j ∈ store, ¬(j.id = jobId ∧ j.queue_name = q) := by
        intro j hj
        have := List.find?_eq_none.mp hfind j hj
        simpa using this
      have hr : retryJob store q jobId = (false, store) := by
        unfold retryJob
        rw [hfind]
      refine ⟨?_, ?_, ?_⟩
      · rw [hr]
        simp only [Prod.fst]
        constructor
        · intro h; exact absurd h (by simp)
        · rintro ⟨j, hj, hid, hq⟩; exact absurd ⟨hid, hq⟩ (hnone j hj)
      · rw [hr]
        intro h
        exact absurd h (by simp)
      · rw [hr]
        intro _
        rfl
  | some j0 =>
      have hj0 := List.mem_of_find?_eq_some hfind
      have hp : j0.id = jobId ∧ j0.queue_name = q := by
        have := List.find?_some hfind
        simpa using this
      have hr : retryJob store q jobId
          = (true, store.map fun r =>
              if r.id = jobId then { r with status := JobStatus.waiting, attempts := 0 }
              else r) := by
        unfold retryJob
        rw [hfind]
      refine ⟨?_, ?_, ?_⟩
      · rw [hr]
        simp only [Prod.fst]
        constructor
        · intro _; exact ⟨j0, hj0, hp⟩
        · intro _; trivial
      · rw [hr]
        intro _
        constructor
        · intro j hj hid
          have hmem := List.mem_map_of_mem
            (fun r : Job => if r.id = jobId then
              { r with status := JobStatus.waiting, attempts := 0 } else r) hj
          simpa [hid] using hmem
        · intro j hj hid
          have hmem := List.mem_map_of_mem
            (fun r : Job => if r.id = jobId then
              { r with status := JobStatus.waiting, attempts := 0 } else r) hj
          simpa [hid] using hmem
      · rw [hr]
        intro h
        exact absurd h (by simp)

/-- C10 witness: resetting an existing failed row id 1 puts the
`waiting`/0-attempts version in the table and keeps rows with other
ids; a missing id 9 leaves the table unchanged. -/
theorem retryJob_spec_witness :
    ({ ({ orphanJob with status := JobStatus.failed, attempts := 3 } : Job) with
        status := JobStatus.waiting, attempts := 0 }
      ∈ (retryJob [{ orphanJob with status := JobStatus.failed, attempts := 3 }] "q" 1).2) ∧
    (retryJob [orphanJob] "q" 9).2 = [orphanJob] :=
  ⟨((retryJob_spec [{ orphanJob with status := JobStatus.failed, attempts := 3 }] "q" 1).2.1
      (by decide)).1 { orphanJob with status := JobStatus.failed, attempts := 3 }
      (by decide) (by decide),
   (retryJob_spec [orphanJob] "q" 9).2.2 (by decide)⟩
